import Mathlib

/-!
Verification of the Honda Odyssey inventory tool's core transforms.

The development shallowly embeds the two source modules:

* `main.py`  — `build_dealer_map`, `format_price`, `iter_inventory_rows`
* `util.py`  — `harvesine`, `driving_time`

Python values flowing through the flattener are modelled by `PyVal`
(strings, ints, floats-as-rationals, `None`, lists and string-keyed
dicts).  Python dict semantics are modelled by association lists in which
the *last* binding of a key wins (`lookupLast`), which matches both dict
literals and repeated `d[k] = v` assignment.  Python float values are
modelled as rationals; the textual `repr` of floats and containers is
abstracted (no claim inspects it), everything else is rendered as CPython
renders it.
-/

/-- A Python value as it occurs in the parsed API response. -/
inductive PyVal where
  | none : PyVal
  | str (s : String) : PyVal
  | int (n : Int) : PyVal
  | float (q : ℚ) : PyVal
  | list (xs : List PyVal) : PyVal
  | dict (kvs : List (String × PyVal)) : PyVal

/-- Last-binding-wins lookup in an association list: the model of
`dict.__getitem__` / `dict.get` for dicts represented as the list of
key/value pairs in insertion order (later duplicates override). -/
def lookupLast (m : List (String × PyVal)) (k : String) : Option PyVal :=
  match m with
  | [] => Option.none
  | (k', v) :: rest =>
    match lookupLast rest k with
    | some r => some r
    | Option.none => if k' = k then some v else Option.none

/-- Model of Python's `d.get(k, default)`. -/
def pyGet (m : List (String × PyVal)) (k : String) (d : PyVal) : PyVal :=
  match lookupLast m k with
  | some v => v
  | Option.none => d

/-- Elements of a Python list (non-lists iterate as empty; the claims only
exercise well-shaped data). -/
def asList : PyVal → List PyVal
  | .list xs => xs
  | _ => []

/-- Fields of a Python dict (non-dicts read as empty; the claims only
exercise well-shaped data). -/
def asDict : PyVal → List (String × PyVal)
  | .dict kvs => kvs
  | _ => []

/-- Python truthiness (`bool(v)`), as used by `or` and `if not vin`. -/
def pyTruthy : PyVal → Bool
  | .none => false
  | .str s => decide (s ≠ "")
  | .int n => decide (n ≠ 0)
  | .float q => decide (q ≠ 0)
  | .list xs => !xs.isEmpty
  | .dict kvs => !kvs.isEmpty

/-- Python's short-circuiting `a or b` on values. -/
def pyOr (a b : PyVal) : PyVal :=
  if pyTruthy a then a else b

/-- Abstraction of CPython's textual rendering of a float.  Only the fact
that it is some string matters: no claim, and no code path exercised by a
claim, inspects the rendering of a float. -/
def ratStr (q : ℚ) : String :=
  toString q.num ++ (if q.den = 1 then ".0" else "/" ++ toString q.den)

mutual

/-- Python `repr` for the modelled values (used by `str` on containers).
String quoting uses `\x27`; float rendering is abstracted via `ratStr`. -/
def pyRepr : PyVal → String
  | .none => "None"
  | .str s => "\x27" ++ s ++ "\x27"
  | .int n => toString n
  | .float q => ratStr q
  | .list xs => "[" ++ pyReprList xs ++ "]"
  | .dict kvs => "\x7b" ++ pyReprFields kvs ++ "\x7d"

/-- Comma-separated reprs of a list's elements. -/
def pyReprList : List PyVal → String
  | [] => ""
  | [v] => pyRepr v
  | v :: vs => pyRepr v ++ ", " ++ pyReprList vs

/-- Comma-separated `key: value` reprs of a dict's fields. -/
def pyReprFields : List (String × PyVal) → String
  | [] => ""
  | [(k, v)] => "\x27" ++ k ++ "\x27: " ++ pyRepr v
  | (k, v) :: kvs => "\x27" ++ k ++ "\x27: " ++ pyRepr v ++ ", " ++ pyReprFields kvs

end

/-- Python's `str(v)` coercion. -/
def pyStr : PyVal → String
  | .none => "None"
  | .str s => s
  | .int n => toString n
  | .float q => ratStr q
  | v => pyRepr v

/-- The ASCII fragment of `str.isdigit`: non-empty and all characters
ASCII digits.  CPython's `str.isdigit` also accepts Unicode digit-class
characters; the full-table check is `pyIsDigitU` below, and the two agree
on ASCII strings (`pyIsDigitU_eq_ascii`). -/
def pyIsDigit (s : String) : Bool :=
  !s.data.isEmpty && s.data.all Char.isDigit

/-- Remove the first `'.'` of a character list, if any. -/
def removeFirstDotL : List Char → List Char
  | [] => []
  | c :: cs => if c = '.' then cs else c :: removeFirstDotL cs

/-- Model of `s.replace(".", "", 1)`. -/
def removeFirstDot (s : String) : String :=
  ⟨removeFirstDotL s.data⟩

/-- Value of a list of ASCII digit characters, most significant first. -/
def digitsToNat (cs : List Char) : Nat :=
  cs.foldl (fun a c => 10 * a + (c.toNat - 48)) 0

/-- Integer part, fractional part and fractional length of a numeric
string, split at its (first) decimal point. -/
def parseParts (s : String) : Nat × Nat × Nat :=
  let ip := s.data.takeWhile (fun c => c ≠ '.')
  let fp := (s.data.dropWhile (fun c => c ≠ '.')).drop 1
  (digitsToNat ip, digitsToNat fp, fp.length)

/-- Model of Python's `float(s)` on the strings accepted by the source's
numeric-looking check (digits with at most one decimal point). -/
def parsePyFloat (s : String) : ℚ :=
  ((parseParts s).1 : ℚ) + ((parseParts s).2.1 : ℚ) / 10 ^ (parseParts s).2.2

/-- Round-half-even to the nearest integer, the rounding applied by
CPython's `format(x, ',.0f')`. -/
def roundHalfEven (q : ℚ) : Int :=
  let f := ⌊q⌋
  let r := q - (f : ℚ)
  if r < 1 / 2 then f
  else if 1 / 2 < r then f + 1
  else if f % 2 = 0 then f else f + 1

/-- Little-endian decimal digits of `n` (with explicit fuel; call with
fuel `n + 1`). -/
def natDigitsLE : Nat → Nat → List Nat
  | 0, _ => []
  | fuel + 1, n => if n < 10 then [n] else n % 10 :: natDigitsLE fuel (n / 10)

/-- Insert a comma after every third digit, counting from the right, over
a little-endian digit-character list; `k` counts digits already emitted in
the current group. -/
def insertCommas : List Char → Nat → List Char
  | [], _ => []
  | c :: cs, k => if k = 3 then ',' :: c :: insertCommas cs 1 else c :: insertCommas cs (k + 1)

/-- Model of `format(n, ',d')` on an integer: optional sign, then decimal
digits in groups of three separated by commas. -/
def commaGroup (n : Int) : String :=
  let ds := (natDigitsLE (n.natAbs + 1) n.natAbs).map Nat.digitChar
  (if n < 0 then "-" else "") ++ String.mk (insertCommas ds 0).reverse

/-- Total embedding of `main.format_price` on the ASCII fragment, the one
the row pipeline uses.  The Unicode-faithful, fallible embedding is
`format_price_u` below; the two agree on ASCII strings
(`format_price_ascii_agree`) and part ways exactly on strings containing
non-ASCII digit-class characters, where the source can render or raise
(see the analysis of claim C2). -/
def format_price (price : PyVal) : String :=
  match price with
  | .none => "N/A"
  | .str s =>
    if pyIsDigit (removeFirstDot s) then
      "$" ++ commaGroup (roundHalfEven (parsePyFloat s))
    else
      pyStr (.str s)
  | .int n => "$" ++ commaGroup n
  | .float q => "$" ++ commaGroup (roundHalfEven q)
  | v => pyStr v

/-! ### Unicode-faithful model of the price formatter

CPython's `str.isdigit` is a Unicode-table property (`Numeric_Type` Digit
or Decimal), while `float` only converts decimal digits (`Nd`), so the
source's numeric-looking guard admits strings `float` rejects — on those
`format_price` raises `ValueError`.  The tables below are taken from the
Unicode character database (as shipped with CPython). -/

/-- Inclusive code-point ranges of the characters for which CPython's
`str.isdigit` is true. -/
def isdigitRanges : List (Nat × Nat) :=
  [(48, 57), (178, 179), (185, 185), (1632, 1641), (1776, 1785), (1984, 1993),
   (2406, 2415), (2534, 2543), (2662, 2671), (2790, 2799), (2918, 2927), (3046, 3055),
   (3174, 3183), (3302, 3311), (3430, 3439), (3558, 3567), (3664, 3673), (3792, 3801),
   (3872, 3881), (4160, 4169), (4240, 4249), (4969, 4977), (6112, 6121), (6160, 6169),
   (6470, 6479), (6608, 6618), (6784, 6793), (6800, 6809), (6992, 7001), (7088, 7097),
   (7232, 7241), (7248, 7257), (8304, 8304), (8308, 8313), (8320, 8329), (9312, 9320),
   (9332, 9340), (9352, 9360), (9450, 9450), (9461, 9469), (9471, 9471), (10102, 10110),
   (10112, 10120), (10122, 10130), (42528, 42537), (43216, 43225), (43264, 43273),
   (43472, 43481), (43504, 43513), (43600, 43609), (44016, 44025), (65296, 65305),
   (66720, 66729), (68160, 68163), (68912, 68921), (69216, 69224), (69714, 69722),
   (69734, 69743), (69872, 69881), (69942, 69951), (70096, 70105), (70384, 70393),
   (70736, 70745), (70864, 70873), (71248, 71257), (71360, 71369), (71472, 71481),
   (71904, 71913), (72016, 72025), (72784, 72793), (73040, 73049), (73120, 73129),
   (92768, 92777), (92864, 92873), (93008, 93017), (120782, 120831), (123200, 123209),
   (123632, 123641), (125264, 125273), (127232, 127242), (130032, 130041)]

/-- First code points of the 66 runs of ten consecutive decimal digits
(Unicode category `Nd`); CPython's `float` converts such a character to
the value `c - start` and rejects any other non-ASCII character. -/
def decimalRunStarts : List Nat :=
  [48, 1632, 1776, 1984, 2406, 2534, 2662, 2790, 2918, 3046,
   3174, 3302, 3430, 3558, 3664, 3792, 3872, 4160, 4240, 6112,
   6160, 6470, 6608, 6784, 6800, 6992, 7088, 7232, 7248, 42528,
   43216, 43264, 43472, 43504, 43600, 44016, 65296, 66720, 68912, 69734,
   69872, 69942, 70096, 70384, 70736, 70864, 71248, 71360, 71472, 71904,
   72016, 72784, 73040, 73120, 92768, 92864, 93008, 120782, 120792, 120802,
   120812, 120822, 123200, 123632, 125264, 130032]

/-- CPython's `str.isdigit` on a single character (full table). -/
def pyCharIsDigit (c : Char) : Bool :=
  isdigitRanges.any (fun r => decide (r.1 ≤ c.toNat) && decide (c.toNat ≤ r.2))

/-- CPython's `str.isdigit` with the full Unicode table: non-empty and
every character digit-class. -/
def pyIsDigitU (s : String) : Bool :=
  !s.data.isEmpty && s.data.all pyCharIsDigit

/-- The decimal value `float` assigns to a character, if any: Unicode
decimal digits only.  Digit-class characters that are not decimal — the
superscript in `"45²"` say — have none, which is what makes `float`
raise on them. -/
def charDecimalVal (c : Char) : Option Nat :=
  decimalRunStarts.findSome? (fun s =>
    if s ≤ c.toNat ∧ c.toNat ≤ s + 9 then some (c.toNat - s) else Option.none)

/-- Value of a digit list under `float`'s per-character conversion;
`none` when some character has no decimal value. -/
def digitsVal? (cs : List Char) : Option Nat :=
  cs.foldl (fun acc c =>
    match acc, charDecimalVal c with
    | some a, some d => some (10 * a + d)
    | _, _ => Option.none) (some 0)

/-- Integer part, fractional part and fractional length of a numeric
string under `float`'s conversion, split at its first decimal point. -/
def parsePartsU (s : String) : Option Nat × Option Nat × Nat :=
  let ip := s.data.takeWhile (fun c => c ≠ '.')
  let fp := (s.data.dropWhile (fun c => c ≠ '.')).drop 1
  (digitsVal? ip, digitsVal? fp, fp.length)

/-- Model of CPython's `float(s)` on the strings the numeric-looking
guard accepts (digit-class characters plus at most one point): it
succeeds iff every such character is a decimal digit, and fails —
`ValueError`, modelled as `none` — otherwise. -/
def floatParse? (s : String) : Option ℚ :=
  match (parsePartsU s).1, (parsePartsU s).2.1 with
  | some i, some f => some ((i : ℚ) + (f : ℚ) / 10 ^ (parsePartsU s).2.2)
  | _, _ => Option.none

/-- Fallible, Unicode-faithful embedding of `main.format_price`: `none`
models the `ValueError` CPython raises when the `isdigit` guard admits a
string `float` rejects.  `format_price` above is its ASCII restriction
(`format_price_ascii_agree`). -/
def format_price_u (price : PyVal) : Option String :=
  match price with
  | .none => some "N/A"
  | .str s =>
    if pyIsDigitU (removeFirstDot s) then
      (floatParse? s).map (fun q => "$" ++ commaGroup (roundHalfEven q))
    else some s
  | .int n => some ("$" ++ commaGroup n)
  | .float q => some ("$" ++ commaGroup (roundHalfEven q))
  | v => some (pyStr v)

/-- One flattened output row, as yielded by `iter_inventory_rows`.  Field
values keep their Python dynamic type (`PyVal`); the formatted price is the
string `format_price` returns. -/
structure Row where
  dealer : PyVal
  address1 : PyVal
  city : PyVal
  state : PyVal
  postal : PyVal
  phone : PyVal
  lat : PyVal
  lon : PyVal
  retail_url : PyVal
  trim : PyVal
  inv_type : PyVal
  color : PyVal
  vin : PyVal
  price : String
  interior_color : PyVal

/-- The dealer record `main.build_dealer_map` stores for one dealer
object: the dict built in its loop body. -/
def mkDealerRecord (dealer : PyVal) : PyVal :=
  .dict
    [("name", pyGet (asDict dealer) "Name" (.str "")),
     ("address1", pyGet (asDict dealer) "Address1" (.str "")),
     ("city", pyGet (asDict dealer) "City" (.str "")),
     ("state", pyGet (asDict dealer) "State" (.str "")),
     ("postal", pyGet (asDict dealer) "ZipCode" (.str "")),
     ("phone", pyGet (asDict dealer) "Phone" (.str "")),
     ("lat", pyGet (asDict dealer) "Latitude" .none),
     ("lon", pyGet (asDict dealer) "Longitude" .none),
     ("retail_url", pyGet (asDict dealer) "OnlineRetailingURL" (.str ""))]

/-- The string key a dealer object is stored under:
`str(dealer.get("DealerNumber"))`. -/
def dealerKey (dealer : PyVal) : String :=
  pyStr (pyGet (asDict dealer) "DealerNumber" .none)

/-- Embedding of `main.build_dealer_map`: fold over `data.get("dealers", [])`
performing the dict assignments in order. -/
def build_dealer_map (data : List (String × PyVal)) : List (String × PyVal) :=
  (asList (pyGet data "dealers" (.list []))).foldl
    (fun m dealer => m ++ [(dealerKey dealer, mkDealerRecord dealer)]) []

/-- The row `iter_inventory_rows` yields for one VIN value of one item,
given the resolved dealer sub-record. -/
def mkRow (dealer_info : List (String × PyVal)) (item : List (String × PyVal))
    (vin : PyVal) : Row :=
  { dealer := pyGet dealer_info "name" (.str "Unknown dealer")
    address1 := pyGet dealer_info "address1" (.str "")
    city := pyGet dealer_info "city" (.str "")
    state := pyGet dealer_info "state" (.str "")
    postal := pyGet dealer_info "postal" (.str "")
    phone := pyGet dealer_info "phone" (.str "")
    lat := pyGet dealer_info "lat" (.str "")
    lon := pyGet dealer_info "lon" (.str "")
    retail_url := pyGet dealer_info "retail_url" (.str "")
    trim := pyGet item "ModelTrim" (.str "")
    inv_type := pyGet item "InventoryType" (.str "")
    color := pyOr (pyOr (pyGet item "ExteriorColor" .none)
      (pyGet item "ModelBaseColor" .none)) (.str "(Unknown color)")
    vin := vin
    price := format_price (pyGet item "ModelMSRP" .none)
    interior_color := pyGet item "InteriorColor" (.str "") }

/-- The rows one inventory item contributes: resolve the dealer sub-record
through the dealer map (defaulting to the empty dict), then emit one row
per VIN entry whose `VIN` value is truthy (`if not vin: continue`). -/
def rows_for_item (dm : List (String × PyVal)) (item : List (String × PyVal)) :
    List Row :=
  let dealer_info := asDict (pyGet dm (pyStr (pyGet item "DealerNumber" .none)) (.dict []))
  (asList (pyGet item "VINs" (.list []))).filterMap fun ve =>
    let vin := pyGet (asDict ve) "VIN" .none
    if pyTruthy vin then some (mkRow dealer_info item vin) else Option.none

/-- Embedding of `main.iter_inventory_rows`: build the dealer map once,
then flatten `data.get("inventory", [])` item by item. -/
def iter_inventory_rows (data : List (String × PyVal)) : List Row :=
  let dealer_map := build_dealer_map data
  (asList (pyGet data "inventory" (.list []))).flatMap fun item =>
    rows_for_item dealer_map (asDict item)

/-- Total number of VIN entries across all inventory items of a response. -/
def totalVins (data : List (String × PyVal)) : Nat :=
  ((asList (pyGet data "inventory" (.list []))).map fun item =>
    (asList (pyGet (asDict item) "VINs" (.list []))).length).sum

/-! Concrete response fragments used as evaluation inputs for the claims. -/

/-- A response whose single inventory item references dealer number `"999"`,
which no dealer of the response carries. -/
def c1data : List (String × PyVal) :=
  [("inventory", .list [.dict [("DealerNumber", .str "999"),
    ("VINs", .list [.dict [("VIN", .str "VIN0001")]])]])]

/-- The single inventory item of `c1data`. -/
def c1item : PyVal :=
  .dict [("DealerNumber", .str "999"), ("VINs", .list [.dict [("VIN", .str "VIN0001")]])]

/-- An inventory item with an empty `ExteriorColor` and `ModelBaseColor`
`"Silver"`. -/
def c3item : List (String × PyVal) :=
  [("ExteriorColor", .str ""), ("ModelBaseColor", .str "Silver"),
   ("VINs", .list [.dict [("VIN", .str "VIN0003")]])]

/-- The row `c3item` produces under an empty dealer map. -/
def c3row : Row := mkRow [] c3item (.str "VIN0003")

/-- The spec's worked example: dealer 100 "Acme", one item with VINs
`"X1"` and `""`. -/
def c4data : List (String × PyVal) :=
  [("dealers", .list [.dict [("DealerNumber", .str "100"), ("Name", .str "Acme")]]),
   ("inventory", .list [.dict [("DealerNumber", .str "100"),
     ("VINs", .list [.dict [("VIN", .str "X1")], .dict [("VIN", .str "")]])]])]

/-- The single row `c4data` flattens to. -/
def c4row : Row :=
  { dealer := .str "Acme", address1 := .str "", city := .str "", state := .str "",
    postal := .str "", phone := .str "", lat := .none, lon := .none,
    retail_url := .str "", trim := .str "", inv_type := .str "",
    color := .str "(Unknown color)", vin := .str "X1", price := "N/A",
    interior_color := .str "" }

/-- First of two dealers sharing dealer number `"7"`. -/
def c8dealer1 : PyVal := .dict [("DealerNumber", .str "7"), ("Name", .str "First Motors")]

/-- Second of two dealers sharing dealer number `"7"`. -/
def c8dealer2 : PyVal := .dict [("DealerNumber", .str "7"), ("Name", .str "Second Motors")]

/-- A response with duplicate dealer numbers. -/
def c8data : List (String × PyVal) := [("dealers", .list [c8dealer1, c8dealer2])]

/-- A dealer carrying no `DealerNumber` field at all. -/
def c10dealer : PyVal := .dict [("Name", .str "Null Dealer"), ("Address1", .str "1 Null St")]

/-- A response whose only dealer and only inventory item both lack a
`DealerNumber`, so both sides coerce to the key `"None"`. -/
def c10data : List (String × PyVal) :=
  [("dealers", .list [c10dealer]),
   ("inventory", .list [.dict [("VINs", .list [.dict [("VIN", .str "VIN0010")]])]])]

noncomputable section

open Real

/-- Model of C / Python `math.atan2 y x` on the reals (signed zeros are not
distinguished; `atan2 0 0 = 0` as in CPython). -/
def atan2 (y x : ℝ) : ℝ :=
  if 0 < x then arctan (y / x)
  else if x < 0 then
    (if 0 ≤ y then arctan (y / x) + π else arctan (y / x) - π)
  else
    (if 0 < y then π / 2 else if y < 0 then -(π / 2) else 0)

/-- Model of `math.radians`. -/
def deg2rad (x : ℝ) : ℝ := x * (π / 180)

/-- The intermediate `a` of `util.harvesine`:
`sin(dLat/2)**2 + cos(lat1)*cos(lat2)*sin(dLon/2)**2` after the
degree-to-radian conversion. -/
def hav_a (lat1 lon1 lat2 lon2 : ℝ) : ℝ :=
  let p1 := deg2rad lat1
  let p2 := deg2rad lat2
  let q1 := deg2rad lon1
  let q2 := deg2rad lon2
  sin ((p2 - p1) / 2) ^ 2 + cos p1 * cos p2 * sin ((q2 - q1) / 2) ^ 2

/-- Embedding of `util.harvesine` over exact reals: great-circle distance
in miles.  `Real.sqrt` is total, so this embedding cannot express the
`ValueError` the float program raises when rounding pushes the computed
intermediate `a` just above `1` at near-antipodal inputs (the claim C5
analysis); in exact arithmetic `a` never exceeds `1` and the boundary
`1 - a = 0` is attained exactly at antipodal points. -/
def harvesine (lat1 lon1 lat2 lon2 : ℝ) : ℝ :=
  let a := hav_a lat1 lon1 lat2 lon2
  let c := 2 * atan2 (Real.sqrt a) (Real.sqrt (1 - a))
  3958.8 * c

/-- Embedding of `util.driving_time` (the source defaults `speed_mph` to
60; the default is passed explicitly here). -/
def driving_time (lat1 lon1 lat2 lon2 speed_mph : ℝ) : ℝ :=
  harvesine lat1 lon1 lat2 lon2 / speed_mph

end

/-! ### Helper lemmas about the numeric-looking check -/

theorem removeFirst_sublist (l : List Char) : List.Sublist (removeFirstDotL l) l := by
  induction l with
  | nil => exact List.Sublist.refl []
  | cons c cs ih =>
    by_cases hc : c = '.'
    · subst hc
      have hr : removeFirstDotL ('.' :: cs) = cs := by simp [removeFirstDotL]
      rw [hr]
      exact List.sublist_cons_self '.' cs
    · have hr : removeFirstDotL (c :: cs) = c :: removeFirstDotL cs := by
        simp [removeFirstDotL, hc]
      rw [hr]
      exact ih.cons₂ c

/-- An ASCII digit is in the full `isdigit` table (its first range). -/
theorem pyCharIsDigit_of_ascii {c : Char} (h48 : 48 ≤ c.toNat) (h57 : c.toNat ≤ 57) :
    pyCharIsDigit c = true :=
  List.any_eq_true.mpr
    ⟨(48, 57), by rw [isdigitRanges]; exact List.mem_cons_self _ _, by simp [h48, h57]⟩

/-- Below code point 128 the full `isdigit` table contains only the ASCII
digits: every other range starts at 178 or later. -/
theorem ascii_of_pyCharIsDigit {c : Char} (hlt : c.toNat < 128)
    (h : pyCharIsDigit c = true) : 48 ≤ c.toNat ∧ c.toNat ≤ 57 := by
  obtain ⟨r, hr, hc⟩ := List.any_eq_true.mp h
  simp only [Bool.and_eq_true, decide_eq_true_eq] at hc
  have hcases : r = (48, 57) ∨ 178 ≤ r.1 :=
    (by decide : ∀ p ∈ isdigitRanges, p = (48, 57) ∨ 178 ≤ p.1) r hr
  rcases hcases with rfl | h178
  · exact hc
  · omega

/-- On ASCII characters the full table and the ASCII check agree. -/
theorem pyCharIsDigit_eq_ascii {c : Char} (hlt : c.toNat < 128) :
    pyCharIsDigit c = c.isDigit := by
  cases hd : c.isDigit with
  | true =>
    have hb : 48 ≤ c.toNat ∧ c.toNat ≤ 57 := by
      simp [Char.isDigit] at hd
      exact hd
    exact pyCharIsDigit_of_ascii hb.1 hb.2
  | false =>
    cases hp : pyCharIsDigit c with
    | false => rfl
    | true =>
      obtain ⟨h48, h57⟩ := ascii_of_pyCharIsDigit hlt hp
      have : c.isDigit = true := by
        simp [Char.isDigit]
        exact ⟨h48, h57⟩
      rw [this] at hd
      exact hd

/-- On lists of ASCII characters the two per-character checks agree
pointwise, hence so do the `all` folds. -/
theorem all_pyCharIsDigit_ascii (l : List Char) (h : ∀ c ∈ l, c.toNat < 128) :
    l.all pyCharIsDigit = l.all Char.isDigit := by
  induction l with
  | nil => rfl
  | cons c cs ih =>
    rw [List.all_cons, List.all_cons,
      pyCharIsDigit_eq_ascii (h c (List.mem_cons_self c cs)),
      ih (fun d hd => h d (List.mem_cons_of_mem c hd))]

/-- On ASCII strings the full-table guard and the ASCII guard agree. -/
theorem pyIsDigitU_eq_ascii (s : String) (hascii : ∀ c ∈ s.data, c.toNat < 128) :
    pyIsDigitU (removeFirstDot s) = pyIsDigit (removeFirstDot s) := by
  have hsub : ∀ c ∈ (removeFirstDot s).data, c.toNat < 128 := fun c hc =>
    hascii c (List.Sublist.mem hc (removeFirst_sublist s.data))
  unfold pyIsDigitU pyIsDigit
  rw [all_pyCharIsDigit_ascii _ hsub]

/-- An ASCII digit's decimal value under `float`'s conversion is the
usual one (first run of the table). -/
theorem charDecimalVal_ascii {c : Char} (h48 : 48 ≤ c.toNat) (h57 : c.toNat ≤ 57) :
    charDecimalVal c = some (c.toNat - 48) := by
  rw [charDecimalVal, decimalRunStarts, List.findSome?_cons]
  rw [if_pos ⟨h48, by omega⟩]

/-- On lists of ASCII digits, `float`'s digit accumulation succeeds with
the usual value. -/
theorem digitsVal?_ascii_aux (cs : List Char) (h : ∀ c ∈ cs, c.isDigit = true) :
    ∀ a : Nat,
      cs.foldl (fun acc c =>
          match acc, charDecimalVal c with
          | some x, some d => some (10 * x + d)
          | _, _ => Option.none) (some a)
        = some (cs.foldl (fun x c => 10 * x + (c.toNat - 48)) a) := by
  induction cs with
  | nil => intro a; rfl
  | cons c cs ih =>
    intro a
    have hc := h c (List.mem_cons_self c cs)
    have hb : 48 ≤ c.toNat ∧ c.toNat ≤ 57 := by
      simp [Char.isDigit] at hc
      exact hc
    rw [List.foldl_cons, List.foldl_cons, charDecimalVal_ascii hb.1 hb.2]
    exact ih (fun d hd => h d (List.mem_cons_of_mem c hd)) (10 * a + (c.toNat - 48))

theorem digitsVal?_ascii (cs : List Char) (h : ∀ c ∈ cs, c.isDigit = true) :
    digitsVal? cs = some (digitsToNat cs) :=
  digitsVal?_ascii_aux cs h 0

/-- `removeFirstDotL` splits as the pre-dot prefix followed by the
post-dot suffix. -/
theorem removeFirstDotL_eq_parts (l : List Char) :
    removeFirstDotL l
      = l.takeWhile (fun c => c ≠ '.') ++ (l.dropWhile (fun c => c ≠ '.')).drop 1 := by
  induction l with
  | nil => rfl
  | cons c cs ih =>
    by_cases hc : c = '.'
    · subst hc
      simp [removeFirstDotL, List.takeWhile_cons, List.dropWhile_cons]
    · simp [removeFirstDotL, hc, List.takeWhile_cons, List.dropWhile_cons, ih]

/-- Where the ASCII guard accepts, `float` succeeds with the ASCII
parse's value. -/
theorem floatParse?_ascii (s : String) (h : pyIsDigit (removeFirstDot s) = true) :
    floatParse? s = some (parsePyFloat s) := by
  have hall : ∀ c ∈ (removeFirstDot s).data, c.isDigit = true := by
    have := (Bool.and_eq_true _ _).mp h
    exact fun c hc => List.all_eq_true.mp this.2 c hc
  have hdata : (removeFirstDot s).data
      = s.data.takeWhile (fun c => c ≠ '.') ++ (s.data.dropWhile (fun c => c ≠ '.')).drop 1 :=
    removeFirstDotL_eq_parts s.data
  have hip : ∀ c ∈ s.data.takeWhile (fun c => c ≠ '.'), c.isDigit = true := fun c hc =>
    hall c (hdata ▸ List.mem_append_left _ hc)
  have hfp : ∀ c ∈ (s.data.dropWhile (fun c => c ≠ '.')).drop 1, c.isDigit = true :=
    fun c hc => hall c (hdata ▸ List.mem_append_right _ hc)
  have h1 := digitsVal?_ascii _ hip
  have h2 := digitsVal?_ascii _ hfp
  have hparts : parsePartsU s
      = (some (digitsToNat (s.data.takeWhile (fun c => c ≠ '.'))),
         some (digitsToNat ((s.data.dropWhile (fun c => c ≠ '.')).drop 1)),
         ((s.data.dropWhile (fun c => c ≠ '.')).drop 1).length) := by
    simp only [parsePartsU, h1, h2]
  unfold floatParse?
  rw [hparts]
  rfl

/-- Computation rule for `floatParse?` on a successful split. -/
theorem floatParse?_eq {s : String} {i f n : Nat}
    (h : parsePartsU s = (some i, some f, n)) :
    floatParse? s = some ((i : ℚ) + (f : ℚ) / 10 ^ n) := by
  unfold floatParse?
  rw [h]

/-- On ASCII strings the total `format_price` is exactly the faithful
model: the two only part ways on non-ASCII digit characters. -/
theorem format_price_ascii_agree (s : String) (hascii : ∀ c ∈ s.data, c.toNat < 128) :
    format_price_u (.str s) = some (format_price (.str s)) := by
  show (if pyIsDigitU (removeFirstDot s) then
      (floatParse? s).map (fun q => "$" ++ commaGroup (roundHalfEven q))
    else some s) = some (format_price (.str s))
  have hfp : format_price (.str s)
      = if pyIsDigit (removeFirstDot s) then
          "$" ++ commaGroup (roundHalfEven (parsePyFloat s))
        else s := rfl
  rw [hfp, pyIsDigitU_eq_ascii s hascii]
  by_cases h : pyIsDigit (removeFirstDot s) = true
  · rw [if_pos h, if_pos h, floatParse?_ascii s h]
    rfl
  · rw [if_neg h, if_neg h]

/-! ### Helper lemmas about the flattener -/

theorem pyGet_of_lookup_none {m : List (String × PyVal)} {k : String} {d : PyVal}
    (h : lookupLast m k = Option.none) : pyGet m k d = d := by
  unfold pyGet
  rw [h]

theorem length_filterMap_ite {α β : Type} (p : α → Bool) (f : α → β) (l : List α) :
    (l.filterMap fun x => if p x then some (f x) else Option.none).length
      = (l.filter p).length := by
  induction l with
  | nil => rfl
  | cons a l ih =>
    by_cases h : p a = true
    · simp [List.filterMap_cons, List.filter_cons, h, ih]
    · simp [List.filterMap_cons, List.filter_cons, h, ih]

/-- `rows_for_item` emits exactly one row per VIN entry whose `VIN` value
is truthy. -/
theorem rows_for_item_length (dm : List (String × PyVal)) (item : List (String × PyVal)) :
    (rows_for_item dm item).length
      = ((asList (pyGet item "VINs" (.list []))).filter
          (fun ve => pyTruthy (pyGet (asDict ve) "VIN" PyVal.none))).length := by
  simp only [rows_for_item]
  exact length_filterMap_ite _ (fun ve => mkRow _ item (pyGet (asDict ve) "VIN" PyVal.none)) _

/-- Every row of `rows_for_item` comes from a truthy VIN entry and is the
`mkRow` of that entry. -/
theorem mem_rows_for_item {dm item : List (String × PyVal)} {r : Row}
    (hr : r ∈ rows_for_item dm item) :
    ∃ ve ∈ asList (pyGet item "VINs" (.list [])),
      pyTruthy (pyGet (asDict ve) "VIN" PyVal.none) = true
      ∧ r = mkRow (asDict (pyGet dm (pyStr (pyGet item "DealerNumber" PyVal.none)) (.dict [])))
          item (pyGet (asDict ve) "VIN" PyVal.none) := by
  simp only [rows_for_item] at hr
  obtain ⟨ve, hmem, heq⟩ := List.mem_filterMap.mp hr
  by_cases h : pyTruthy (pyGet (asDict ve) "VIN" PyVal.none) = true
  · rw [if_pos h] at heq
    exact ⟨ve, hmem, h, (Option.some_inj.mp heq).symm⟩
  · rw [if_neg h] at heq
    exact absurd heq (by simp)

theorem foldl_append_map (l : List PyVal) (acc : List (String × PyVal)) :
    l.foldl (fun m dealer => m ++ [(dealerKey dealer, mkDealerRecord dealer)]) acc
      = acc ++ l.map (fun d => (dealerKey d, mkDealerRecord d)) := by
  induction l generalizing acc with
  | nil => simp
  | cons d ds ih => simp [ih]

/-- The dealer map is, extensionally, the list of key/record pairs in
dealer order. -/
theorem build_dealer_map_eq (data : List (String × PyVal)) :
    build_dealer_map data
      = (asList (pyGet data "dealers" (.list []))).map
          (fun d => (dealerKey d, mkDealerRecord d)) := by
  rw [build_dealer_map, foldl_append_map]
  simp

/-- Looking a key up in the dealer map finds the record of the *last*
dealer carrying that key. -/
theorem lookupLast_map_dealers (l : List PyVal) (k : String) :
    lookupLast (l.map (fun d => (dealerKey d, mkDealerRecord d))) k
      = (l.reverse.find? (fun d => dealerKey d == k)).map mkDealerRecord := by
  induction l with
  | nil => rfl
  | cons d ds ih =>
    rw [List.map_cons, List.reverse_cons, List.find?_append]
    show (match lookupLast (ds.map fun d => (dealerKey d, mkDealerRecord d)) k with
      | some r => some r
      | Option.none => if dealerKey d = k then some (mkDealerRecord d) else Option.none) = _
    rw [ih]
    cases hf : ds.reverse.find? (fun d => dealerKey d == k) with
    | some r => simp
    | none =>
      simp only [Option.map_none', Option.none_or]
      by_cases hk : dealerKey d = k
      · simp [List.find?_cons, hk]
      · simp [List.find?_cons, hk]

/-! ### The claims -/

/-- Claim C1: an inventory item whose dealer number resolves to no entry
of the dealer map still yields one row per truthy VIN (no exception:
`rows_for_item` is total and its length equals the truthy-VIN count), and
every such row carries the all-empty dealer sub-record — empty-string
defaults for address1, city, state, postal, phone, lat, lon and
retail_url — with the dealer name field the "Unknown dealer" marker. -/
theorem claim_C1 (data : List (String × PyVal)) (item : PyVal)
    (hmem : item ∈ asList (pyGet data "inventory" (.list [])))
    (hmiss : lookupLast (build_dealer_map data)
      (pyStr (pyGet (asDict item) "DealerNumber" PyVal.none)) = Option.none) :
    (rows_for_item (build_dealer_map data) (asDict item)).length
      = ((asList (pyGet (asDict item) "VINs" (.list []))).filter
          (fun ve => pyTruthy (pyGet (asDict ve) "VIN" PyVal.none))).length
    ∧ ∀ r ∈ rows_for_item (build_dealer_map data) (asDict item),
        r ∈ iter_inventory_rows data
        ∧ r.dealer = .str "Unknown dealer"
        ∧ r.address1 = .str "" ∧ r.city = .str "" ∧ r.state = .str ""
        ∧ r.postal = .str "" ∧ r.phone = .str "" ∧ r.lat = .str ""
        ∧ r.lon = .str "" ∧ r.retail_url = .str "" := by
  refine ⟨rows_for_item_length _ _, ?_⟩
  intro r hr
  have hmem_iter : r ∈ iter_inventory_rows data := by
    simp only [iter_inventory_rows]
    exact List.mem_flatMap.mpr ⟨item, hmem, hr⟩
  obtain ⟨ve, hve, htr, heq⟩ := mem_rows_for_item hr
  have hdi : asDict (pyGet (build_dealer_map data)
      (pyStr (pyGet (asDict item) "DealerNumber" PyVal.none)) (.dict [])) = [] := by
    rw [pyGet_of_lookup_none hmiss]
    rfl
  refine ⟨hmem_iter, ?_⟩
  rw [heq, hdi]
  exact ⟨rfl, rfl, rfl, rfl, rfl, rfl, rfl, rfl, rfl⟩

/-- Witness for C1 at `c1data`: the item is in the inventory, its dealer
number `"999"` misses the dealer map, and it still emits its one row. -/
theorem claim_C1_witness :
    c1item ∈ asList (pyGet c1data "inventory" (.list []))
    ∧ lookupLast (build_dealer_map c1data)
        (pyStr (pyGet (asDict c1item) "DealerNumber" PyVal.none)) = Option.none
    ∧ (rows_for_item (build_dealer_map c1data) (asDict c1item)).length
        = ((asList (pyGet (asDict c1item) "VINs" (.list []))).filter
            (fun ve => pyTruthy (pyGet (asDict ve) "VIN" PyVal.none))).length := by
  have hmem : c1item ∈ asList (pyGet c1data "inventory" (.list [])) :=
    List.mem_singleton.mpr rfl
  have hmiss : lookupLast (build_dealer_map c1data)
      (pyStr (pyGet (asDict c1item) "DealerNumber" PyVal.none)) = Option.none := rfl
  exact ⟨hmem, hmiss, (claim_C1 c1data c1item hmem hmiss).1⟩

/-- Claim C2 (code bug): the numeric-looking guard is CPython's
`str.isdigit`, which admits Unicode digit-class characters, while `float`
only converts decimal digits, so the guard is wider than the parser.  On
`"45²"` the guard passes yet `float` rejects the superscript digit and
`format_price` raises `ValueError` (modelled `none`), contradicting the
claim's (and the spec's never-raise) description that such a value is
rendered or passed through unchanged; a Unicode decimal string such as
`"٤٥"` is meanwhile rendered `"$45"`, not passed through.  On the guarded
path the claim's own examples hold as stated. -/
theorem claim_C2 :
    pyIsDigitU (removeFirstDot "45²") = true
    ∧ format_price_u (.str "45²") = Option.none
    ∧ pyIsDigitU (removeFirstDot "٤٥") = true
    ∧ format_price_u (.str "٤٥") = some "$45"
    ∧ format_price_u PyVal.none = some "N/A"
    ∧ format_price_u (.str "45000") = some "$45,000"
    ∧ format_price_u (.float (45000.4 : ℚ)) = some "$45,000"
    ∧ format_price_u (.str "N/A") = some "N/A" := by
  refine ⟨by decide, by decide, by decide, ?_, rfl, ?_, ?_, by decide⟩
  · have hp : parsePartsU "٤٥" = (some 45, some 0, 0) := by decide
    show (if pyIsDigitU (removeFirstDot "٤٥") then
        (floatParse? "٤٥").map (fun q => "$" ++ commaGroup (roundHalfEven q))
      else some "٤٥") = some "$45"
    rw [if_pos (by decide : pyIsDigitU (removeFirstDot "٤٥") = true),
      floatParse?_eq hp, Option.map_some']
    norm_num
    have hr : roundHalfEven ((45 : ℚ)) = 45 := by norm_num [roundHalfEven]
    rw [hr]
    decide
  · have hp : parsePartsU "45000" = (some 45000, some 0, 0) := by decide
    show (if pyIsDigitU (removeFirstDot "45000") then
        (floatParse? "45000").map (fun q => "$" ++ commaGroup (roundHalfEven q))
      else some "45000") = some "$45,000"
    rw [if_pos (by decide : pyIsDigitU (removeFirstDot "45000") = true),
      floatParse?_eq hp, Option.map_some']
    norm_num
    have hr : roundHalfEven ((45000 : ℚ)) = 45000 := by norm_num [roundHalfEven]
    rw [hr]
    decide
  · have hr : roundHalfEven ((45000.4 : ℚ)) = 45000 := by norm_num [roundHalfEven]
    show some ("$" ++ commaGroup (roundHalfEven ((45000.4 : ℚ)))) = some "$45,000"
    rw [hr]
    decide

/-- Claim C3: the color of every row an item emits is the first truthy
value of `ExteriorColor`, then `ModelBaseColor`, then the literal
placeholder `"(Unknown color)"`; for string-valued fields this is the
first non-empty string in that order. -/
theorem claim_C3 (dm item : List (String × PyVal)) (e b : String)
    (hext : pyGet item "ExteriorColor" PyVal.none = .str e)
    (hbase : pyGet item "ModelBaseColor" PyVal.none = .str b) :
    ∀ r ∈ rows_for_item dm item,
      r.color = .str (if e = "" then (if b = "" then "(Unknown color)" else b) else e) := by
  intro r hr
  obtain ⟨ve, hve, htr, heq⟩ := mem_rows_for_item hr
  rw [heq]
  show pyOr (pyOr (pyGet item "ExteriorColor" PyVal.none)
    (pyGet item "ModelBaseColor" PyVal.none)) (.str "(Unknown color)") = _
  rw [hext, hbase]
  by_cases he : e = ""
  · subst he
    by_cases hb : b = ""
    · subst hb
      simp [pyOr, pyTruthy]
    · simp [pyOr, pyTruthy, hb]
  · simp [pyOr, pyTruthy, he]

/-- Witness for C3 at `c3item` (`ExteriorColor=""`,
`ModelBaseColor="Silver"`): the emitted row's color is `"Silver"`. -/
theorem claim_C3_witness :
    pyGet c3item "ExteriorColor" PyVal.none = .str ""
    ∧ pyGet c3item "ModelBaseColor" PyVal.none = .str "Silver"
    ∧ c3row ∈ rows_for_item [] c3item
    ∧ c3row.color = .str "Silver" := by
  have h1 : pyGet c3item "ExteriorColor" PyVal.none = .str "" := rfl
  have h2 : pyGet c3item "ModelBaseColor" PyVal.none = .str "Silver" := rfl
  have hmem : c3row ∈ rows_for_item [] c3item := List.mem_singleton.mpr rfl
  have hc := claim_C3 [] c3item "" "Silver" h1 h2 c3row hmem
  refine ⟨h1, h2, hmem, ?_⟩
  simpa using hc

/-- Claim C4: the flattener emits exactly one row per truthy VIN entry and
none for an absent/empty VIN, so every emitted row has a truthy
(for strings: non-empty) VIN and the row count is bounded by the total
number of VIN entries; the spec's Acme example yields exactly the one row
with VIN `"X1"` and dealer name `"Acme"`. -/
theorem claim_C4 (data : List (String × PyVal)) :
    (iter_inventory_rows data).length ≤ totalVins data
    ∧ (∀ dm item : List (String × PyVal),
        (rows_for_item dm item).length
          = ((asList (pyGet item "VINs" (.list []))).filter
              (fun ve => pyTruthy (pyGet (asDict ve) "VIN" PyVal.none))).length)
    ∧ (∀ r ∈ iter_inventory_rows data, pyTruthy r.vin = true)
    ∧ (∀ r ∈ iter_inventory_rows data, ∀ s : String, r.vin = .str s → s ≠ "")
    ∧ iter_inventory_rows c4data = [c4row] := by
  have htruthy : ∀ r ∈ iter_inventory_rows data, pyTruthy r.vin = true := by
    intro r hr
    simp only [iter_inventory_rows] at hr
    obtain ⟨item, hitem, hr2⟩ := List.mem_flatMap.mp hr
    obtain ⟨ve, hve, htr, heq⟩ := mem_rows_for_item hr2
    rw [heq]
    exact htr
  refine ⟨?_, fun dm item => rows_for_item_length dm item, htruthy, ?_, rfl⟩
  · have hlen : ∀ item, (rows_for_item (build_dealer_map data) (asDict item)).length
        ≤ (asList (pyGet (asDict item) "VINs" (.list []))).length := by
      intro item
      rw [rows_for_item_length]
      exact List.length_filter_le _ _
    have hiter : (iter_inventory_rows data).length
        = ((asList (pyGet data "inventory" (.list []))).map
            (fun item => (rows_for_item (build_dealer_map data) (asDict item)).length)).sum := by
      simp only [iter_inventory_rows, List.flatMap_def, List.length_flatten, List.map_map]
      rfl
    rw [hiter, totalVins]
    exact List.sum_le_sum (fun i _ => hlen i)
  · intro r hr s hs
    have ht := htruthy r hr
    rw [hs] at ht
    simpa [pyTruthy] using ht

/-- Witness for C4 at the Acme example: its row is emitted and its VIN is
truthy. -/
theorem claim_C4_witness :
    c4row ∈ iter_inventory_rows c4data ∧ pyTruthy c4row.vin = true := by
  have hmem : c4row ∈ iter_inventory_rows c4data := List.mem_singleton.mpr rfl
  exact ⟨hmem, (claim_C4 c4data).2.2.1 c4row hmem⟩

/-- Claim C8: the dealer map binds each string-coerced dealer number to
exactly one record — the one built from the *last* dealer of the input
carrying that number (last write wins); with the duplicate-number response
`c8data`, key `"7"` resolves to the second dealer's record. -/
theorem claim_C8 :
    (∀ (data : List (String × PyVal)) (k : String),
      lookupLast (build_dealer_map data) k
        = ((asList (pyGet data "dealers" (.list []))).reverse.find?
            (fun d => dealerKey d == k)).map mkDealerRecord)
    ∧ lookupLast (build_dealer_map c8data) "7" = some (mkDealerRecord c8dealer2) := by
  constructor
  · intro data k
    rw [build_dealer_map_eq]
    exact lookupLast_map_dealers _ _
  · rfl

/-- Claim C9: an absent or empty top-level `"inventory"` collection makes
the flattener yield zero rows, and an absent or empty `"dealers"`
collection makes the dealer map empty — no error in either case. -/
theorem claim_C9 :
    (∀ data : List (String × PyVal), lookupLast data "inventory" = Option.none →
      iter_inventory_rows data = [])
    ∧ (∀ data : List (String × PyVal), lookupLast data "inventory" = some (.list []) →
      iter_inventory_rows data = [])
    ∧ (∀ data : List (String × PyVal), lookupLast data "dealers" = Option.none →
      build_dealer_map data = [])
    ∧ (∀ data : List (String × PyVal), lookupLast data "dealers" = some (.list []) →
      build_dealer_map data = []) := by
  refine ⟨?_, ?_, ?_, ?_⟩
  · intro data h
    simp only [iter_inventory_rows, pyGet_of_lookup_none h]
    rfl
  · intro data h
    have hv : pyGet data "inventory" (.list []) = .list [] := by
      unfold pyGet
      rw [h]
    simp only [iter_inventory_rows, hv]
    rfl
  · intro data h
    simp only [build_dealer_map, pyGet_of_lookup_none h]
    rfl
  · intro data h
    have hv : pyGet data "dealers" (.list []) = .list [] := by
      unfold pyGet
      rw [h]
    simp only [build_dealer_map, hv]
    rfl

/-- Witness for C9 at the empty response: no `"inventory"` key, zero
rows. -/
theorem claim_C9_witness :
    lookupLast ([] : List (String × PyVal)) "inventory" = Option.none
    ∧ iter_inventory_rows [] = [] :=
  ⟨rfl, claim_C9.1 [] rfl⟩

/-- Claim C10: the join key on both sides is the string coercion of
`DealerNumber` — `str(None) = "None"` — so an item with an absent dealer
number joins a dealer with an absent dealer number: in `c10data` the row
gets that dealer's name and address, not the empty/unknown defaults. -/
theorem claim_C10 :
    pyStr PyVal.none = "None"
    ∧ (∀ data : List (String × PyVal), build_dealer_map data
        = (asList (pyGet data "dealers" (.list []))).map
            (fun d => (pyStr (pyGet (asDict d) "DealerNumber" PyVal.none), mkDealerRecord d)))
    ∧ dealerKey c10dealer = "None"
    ∧ (iter_inventory_rows c10data).map Row.dealer = [.str "Null Dealer"]
    ∧ (iter_inventory_rows c10data).map Row.address1 = [.str "1 Null St"] := by
  refine ⟨rfl, ?_, rfl, rfl, rfl⟩
  intro data
  rw [build_dealer_map_eq]
  rfl

/-! ### Helper lemmas about the geometry functions -/

/-- Half-angle form of the haversine intermediate. -/
theorem hav_a_eq (lat1 lon1 lat2 lon2 : ℝ) :
    hav_a lat1 lon1 lat2 lon2
      = (1 - (Real.sin (deg2rad lat1) * Real.sin (deg2rad lat2)
          + Real.cos (deg2rad lat1) * Real.cos (deg2rad lat2)
            * Real.cos (deg2rad lon2 - deg2rad lon1))) / 2 := by
  have h2 : ∀ x : ℝ, 2 * (x / 2) = x := fun x => by ring
  simp only [hav_a]
  rw [Real.sin_sq_eq_half_sub, Real.sin_sq_eq_half_sub, h2, h2, Real.cos_sub]
  ring

/-- Cauchy–Schwarz bound for the cosine of the central angle; it holds for
arbitrary real inputs, range-checked or not. -/
theorem inner_bound (a b d : ℝ) :
    (Real.sin a * Real.sin b + Real.cos a * Real.cos b * Real.cos d) ^ 2 ≤ 1 := by
  have ha := Real.sin_sq_add_cos_sq a
  have hb := Real.sin_sq_add_cos_sq b
  have hd : Real.cos d ^ 2 ≤ 1 := Real.cos_sq_le_one d
  have key : (Real.sin a * Real.sin b + Real.cos a * Real.cos b * Real.cos d) ^ 2
      + (Real.sin a * Real.cos b * Real.cos d - Real.cos a * Real.sin b) ^ 2
      = (Real.sin a ^ 2 + Real.cos a ^ 2)
        * (Real.sin b ^ 2 + Real.cos b ^ 2 * Real.cos d ^ 2) := by ring
  rw [ha, one_mul] at key
  have ht : 0 ≤ (Real.sin a * Real.cos b * Real.cos d - Real.cos a * Real.sin b) ^ 2 :=
    sq_nonneg _
  have hcb : 0 ≤ Real.cos b ^ 2 := sq_nonneg _
  have h2 : Real.sin b ^ 2 + Real.cos b ^ 2 * Real.cos d ^ 2 ≤ 1 := by nlinarith
  linarith

theorem hav_a_mem (lat1 lon1 lat2 lon2 : ℝ) :
    0 ≤ hav_a lat1 lon1 lat2 lon2 ∧ hav_a lat1 lon1 lat2 lon2 ≤ 1 := by
  rw [hav_a_eq]
  have hX := inner_bound (deg2rad lat1) (deg2rad lat2) (deg2rad lon2 - deg2rad lon1)
  constructor
  · nlinarith [hX, sq_nonneg (Real.sin (deg2rad lat1) * Real.sin (deg2rad lat2)
      + Real.cos (deg2rad lat1) * Real.cos (deg2rad lat2)
        * Real.cos (deg2rad lon2 - deg2rad lon1) - 1)]
  · nlinarith [hX, sq_nonneg (Real.sin (deg2rad lat1) * Real.sin (deg2rad lat2)
      + Real.cos (deg2rad lat1) * Real.cos (deg2rad lat2)
        * Real.cos (deg2rad lon2 - deg2rad lon1) + 1)]

theorem hav_a_symm (lat1 lon1 lat2 lon2 : ℝ) :
    hav_a lat1 lon1 lat2 lon2 = hav_a lat2 lon2 lat1 lon1 := by
  rw [hav_a_eq, hav_a_eq,
    show deg2rad lon1 - deg2rad lon2 = -(deg2rad lon2 - deg2rad lon1) from by ring,
    Real.cos_neg]
  ring

/-- Claim C5 (code bug): in exact real arithmetic the haversine
intermediate `a` lies in `[0, 1]` for all four real inputs, so the
overshoot of `a` past `1.0` that the double-precision program exhibits at
near-antipodal inputs — where `sqrt(1 - a)` raises
`ValueError: math domain error` — is purely a floating-point rounding
failure; and at exactly antipodal inputs the second square-root argument
`1 - a` is exactly `0`: the computation sits on the domain boundary with
no margin, so any upward rounding of `a` crosses it.  The claim's "raises
no error" is therefore false of the program, while its mathematical
content holds of the exact formula. -/
theorem claim_C5 :
    (∀ lat1 lon1 lat2 lon2 : ℝ,
      0 ≤ hav_a lat1 lon1 lat2 lon2 ∧ hav_a lat1 lon1 lat2 lon2 ≤ 1)
    ∧ hav_a (-90) 0 90 0 = 1
    ∧ 1 - hav_a (-90) 0 90 0 = 0 := by
  have h1 : hav_a (-90) 0 90 0 = 1 := by
    simp only [hav_a]
    rw [show (deg2rad 90 - deg2rad (-90)) / 2 = Real.pi / 2 from by unfold deg2rad; ring,
      show (deg2rad 0 - deg2rad 0) / 2 = 0 from by ring]
    simp [Real.sin_pi_div_two]
  exact ⟨fun lat1 lon1 lat2 lon2 => hav_a_mem lat1 lon1 lat2 lon2, h1, by rw [h1]; ring⟩

/-- Claim C6: the great-circle distance is symmetric under swapping the
two points. -/
theorem claim_C6 (lat1 lon1 lat2 lon2 : ℝ) :
    harvesine lat1 lon1 lat2 lon2 = harvesine lat2 lon2 lat1 lon1 := by
  simp only [harvesine]
  rw [hav_a_symm]

/-- Claim C7: the distance from any point to itself is exactly `0`;
driving time is distance divided by speed, hence `0` for the identical
pair at any positive speed. -/
theorem claim_C7 (lat lon : ℝ) :
    harvesine lat lon lat lon = 0
    ∧ (∀ lat1 lon1 lat2 lon2 speed : ℝ,
        driving_time lat1 lon1 lat2 lon2 speed = harvesine lat1 lon1 lat2 lon2 / speed)
    ∧ ∀ speed : ℝ, 0 < speed → driving_time lat lon lat lon speed = 0 := by
  have hz : hav_a lat lon lat lon = 0 := by
    simp [hav_a]
  have hat : atan2 0 1 = 0 := by
    unfold atan2
    rw [if_pos one_pos]
    simp [Real.arctan_zero]
  have hharv : harvesine lat lon lat lon = 0 := by
    simp only [harvesine, hz]
    rw [show (1:ℝ) - 0 = 1 from by ring, Real.sqrt_zero, Real.sqrt_one, hat]
    ring
  refine ⟨hharv, fun _ _ _ _ _ => rfl, ?_⟩
  intro speed hs
  unfold driving_time
  rw [hharv]
  exact zero_div speed

/-- Witness for C7 at the origin with speed 1. -/
theorem claim_C7_witness :
    (0:ℝ) < 1 ∧ driving_time 0 0 0 0 1 = 0 :=
  ⟨one_pos, (claim_C7 0 0).2.2 1 one_pos⟩

